import Mathlib

/-!
Shallow embedding of `fetch_calendar.py` (strategic-cockpit-backend):
the economic-calendar pipeline — identity generation, row normalization,
stateful merge, dual-trigger notification evaluation, persistence — together
with proofs settling the frozen specification claims.

Machine conventions: timestamps are integers in microseconds (Python
`datetime` resolution); Python `float` values arising from decimal literals
are modelled exactly as rationals; 32-bit words in the digest are `Nat`
reduced modulo `2 ^ 32`.
-/

namespace Cockpit

/-! ## Python string helpers -/

/-- Characters treated as whitespace by Python's `str.strip` / `str.split`
(ASCII whitespace plus the no-break space that appears in provider cells). -/
def isPyWs (c : Char) : Bool :=
  c == ' ' || c == '\t' || c == '\n' || c == '\r' || c == '\u000b' ||
    c == '\u000c' || c == ' '

/-- Python `str.strip()` with no arguments. -/
def pyStrip (s : String) : String :=
  String.mk (((s.data.dropWhile isPyWs).reverse.dropWhile isPyWs).reverse)

/-- Splitting on whitespace runs as Python `str.split()` does (empty pieces
are dropped). -/
def splitWsAux : List Char → List Char → List (List Char)
  | [], cur => if cur = [] then [] else [cur.reverse]
  | c :: rest, cur =>
    if isPyWs c then
      if cur = [] then splitWsAux rest [] else cur.reverse :: splitWsAux rest []
    else splitWsAux rest (c :: cur)

/-- Whitespace normalization used on event names:
Python `' '.join(name.split())`. -/
def wsCollapse (s : String) : String :=
  String.mk (List.intercalate [' '] (splitWsAux s.data []))

/-- Truthiness of an optional provider string in Python: `None` and the empty
string are falsy, every other string is truthy. -/
def optTruthy : Option String → Bool
  | none => false
  | some s => !(s == "")

/-! ## Calendar arithmetic (proleptic Gregorian, as Python `datetime`) -/

def isLeapYear (y : Nat) : Bool :=
  (y % 4 == 0 && y % 100 != 0) || y % 400 == 0

def daysInMonth (y m : Nat) : Nat :=
  if m = 2 then (if isLeapYear y then 29 else 28)
  else if m = 4 ∨ m = 6 ∨ m = 9 ∨ m = 11 then 30
  else 31

def daysBeforeYear (y : Nat) : Nat :=
  365 * (y - 1) + (y - 1) / 4 - (y - 1) / 100 + (y - 1) / 400

def daysBeforeMonth (y m : Nat) : Nat :=
  (List.range m).foldl (fun acc k => if 1 ≤ k then acc + daysInMonth y k else acc) 0

/-- Day count of a civil date (days since 0001-01-01). -/
def civilOrdinal (y m d : Nat) : Nat :=
  daysBeforeYear y + daysBeforeMonth y m + (d - 1)

/-- Microsecond timestamp of a civil date-time. -/
def microsOfDateTime (y mo d h mi s : Nat) : Nat :=
  (((civilOrdinal y mo d * 24 + h) * 60 + mi) * 60 + s) * 1000000

/-- Microseconds in one hour. -/
def microsPerHour : ℤ := 3600000000

/-- Microseconds in the 28-day fetch window. -/
def microsPerWindow : ℤ := 2419200000000

/-! ## Field matchers for Python `strptime`

Each matcher mirrors the regular expression CPython's `_strptime` compiles
for the corresponding directive (ordered alternation, one or two digits). -/

def charDigit (c : Char) : Nat := c.toNat - 48

/-- Membership of a character in an inclusive range, as one regex character
class. -/
def inRange (lo hi c : Char) : Bool := decide (lo ≤ c) && decide (c ≤ hi)

/-- Directive `%Y`: exactly four digits. -/
def matchYear4 : List Char → Option (Nat × List Char)
  | a :: b :: c :: d :: rest =>
    if a.isDigit && b.isDigit && c.isDigit && d.isDigit then
      some (charDigit a * 1000 + charDigit b * 100 + charDigit c * 10 + charDigit d, rest)
    else none
  | _ => none

/-- Directive `%m`: alternation `1[0-2]`, `0[1-9]`, `[1-9]`. -/
def matchMonth : List Char → Option (Nat × List Char)
  | '1' :: c :: rest =>
    if inRange '0' '2' c then some (10 + charDigit c, rest) else some (1, c :: rest)
  | '0' :: c :: rest =>
    if inRange '1' '9' c then some (charDigit c, rest) else none
  | c :: rest =>
    if inRange '1' '9' c then some (charDigit c, rest) else none
  | [] => none

/-- Directive `%d`: alternation `3[01]`, `[12][0-9]`, `0[1-9]`, `[1-9]`. -/
def matchDay : List Char → Option (Nat × List Char)
  | '3' :: c :: rest =>
    if c = '0' ∨ c = '1' then some (30 + charDigit c, rest) else some (3, c :: rest)
  | '0' :: c :: rest =>
    if inRange '1' '9' c then some (charDigit c, rest) else none
  | a :: c :: rest =>
    if (a = '1' ∨ a = '2') ∧ c.isDigit then some (charDigit a * 10 + charDigit c, rest)
    else if inRange '1' '9' a then some (charDigit a, c :: rest)
    else none
  | [c] => if inRange '1' '9' c then some (charDigit c, []) else none
  | [] => none

/-- Directive `%H`: alternation `2[0-3]`, `[0-1][0-9]`, `[0-9]`. -/
def matchHour : List Char → Option (Nat × List Char)
  | '2' :: c :: rest =>
    if inRange '0' '3' c then some (20 + charDigit c, rest) else some (2, c :: rest)
  | a :: c :: rest =>
    if (a = '0' ∨ a = '1') ∧ c.isDigit then some (charDigit a * 10 + charDigit c, rest)
    else if a.isDigit then some (charDigit a, c :: rest)
    else none
  | [c] => if c.isDigit then some (charDigit c, []) else none
  | [] => none

/-- Directive `%M`: alternation `[0-5][0-9]`, `[0-9]`. -/
def matchMinute : List Char → Option (Nat × List Char)
  | a :: c :: rest =>
    if inRange '0' '5' a && c.isDigit then some (charDigit a * 10 + charDigit c, rest)
    else if a.isDigit then some (charDigit a, c :: rest)
    else none
  | [c] => if c.isDigit then some (charDigit c, []) else none
  | [] => none

/-- Directive `%S`: alternation `6[0-1]`, `[0-5][0-9]`, `[0-9]`. -/
def matchSecond : List Char → Option (Nat × List Char)
  | '6' :: c :: rest =>
    if c = '0' ∨ c = '1' then some (60 + charDigit c, rest) else some (6, c :: rest)
  | a :: c :: rest =>
    if inRange '0' '5' a && c.isDigit then some (charDigit a * 10 + charDigit c, rest)
    else if a.isDigit then some (charDigit a, c :: rest)
    else none
  | [c] => if c.isDigit then some (charDigit c, []) else none
  | [] => none

/-- A literal separator character in the format string. -/
def matchLit (c : Char) : List Char → Option (List Char)
  | x :: rest => if x = c then some rest else none
  | [] => none

/-- A literal whitespace in the format string (compiled to one-or-more
whitespace characters). -/
def matchWs1 : List Char → Option (List Char)
  | c :: rest => if isPyWs c then some (rest.dropWhile isPyWs) else none
  | [] => none

/-- Python `datetime.strptime(s, "%Y-%m-%d %H:%M")`, yielding the event's
microsecond timestamp (seconds are zero in this format); `none` when the
string fails to parse or names an invalid calendar date.  Used by the
notification evaluator on the combined `date time` string. -/
def parseDateTimeHM (s : String) : Option ℤ := do
  let (y, r1) ← matchYear4 s.data
  let r2 ← matchLit '-' r1
  let (mo, r3) ← matchMonth r2
  let r4 ← matchLit '-' r3
  let (d, r5) ← matchDay r4
  let r6 ← matchWs1 r5
  let (h, r7) ← matchHour r6
  let r8 ← matchLit ':' r7
  let (mi, r9) ← matchMinute r8
  if r9 = [] ∧ 1 ≤ y ∧ d ≤ daysInMonth y mo then
    some ((microsOfDateTime y mo d h mi 0 : Nat) : ℤ)
  else none

/-- Python `datetime.strptime(s, "%Y/%m/%d %H:%M:%S")`, yielding the civil
components; `none` on parse failure or invalid date.  Used on the provider's
`data-event-datetime` attribute. -/
def parseDateTimeSlash (s : String) : Option (Nat × Nat × Nat × Nat × Nat × Nat) := do
  let (y, r1) ← matchYear4 s.data
  let r2 ← matchLit '/' r1
  let (mo, r3) ← matchMonth r2
  let r4 ← matchLit '/' r3
  let (d, r5) ← matchDay r4
  let r6 ← matchWs1 r5
  let (h, r7) ← matchHour r6
  let r8 ← matchLit ':' r7
  let (mi, r9) ← matchMinute r8
  let r10 ← matchLit ':' r9
  let (sec, r11) ← matchSecond r10
  if r11 = [] ∧ 1 ≤ y ∧ d ≤ daysInMonth y mo ∧ sec ≤ 59 then
    some (y, mo, d, h, mi, sec)
  else none

/-- Zero-padded two-digit rendering, as `strftime` field output. -/
def pad2 (n : Nat) : String :=
  if n < 10 then "0" ++ toString n else toString n

/-- Zero-padded four-digit year rendering, as `strftime("%Y")`. -/
def pad4 (n : Nat) : String :=
  if n < 10 then "000" ++ toString n
  else if n < 100 then "00" ++ toString n
  else if n < 1000 then "0" ++ toString n
  else toString n

/-! ## MD5 digest (`hashlib.md5`), over byte lists with 32-bit words as `Nat` -/

/-- UTF-8 encoding of one character (Python `str.encode()`). -/
def utf8Bytes (c : Char) : List Nat :=
  let n := c.toNat
  if n < 128 then [n]
  else if n < 2048 then [192 ||| (n >>> 6), 128 ||| (n &&& 63)]
  else if n < 65536 then
    [224 ||| (n >>> 12), 128 ||| ((n >>> 6) &&& 63), 128 ||| (n &&& 63)]
  else
    [240 ||| (n >>> 18), 128 ||| ((n >>> 12) &&& 63),
      128 ||| ((n >>> 6) &&& 63), 128 ||| (n &&& 63)]

/-- UTF-8 encoding of a string as a byte list. -/
def utf8Encode (s : String) : List Nat := (s.data.map utf8Bytes).flatten

def md5K : List Nat := [
  3614090360, 3905402710, 606105819, 3250441966, 4118548399, 1200080426, 2821735955, 4249261313,
  1770035416, 2336552879, 4294925233, 2304563134, 1804603682, 4254626195, 2792965006, 1236535329,
  4129170786, 3225465664, 643717713, 3921069994, 3593408605, 38016083, 3634488961, 3889429448,
  568446438, 3275163606, 4107603335, 1163531501, 2850285829, 4243563512, 1735328473, 2368359562,
  4294588738, 2272392833, 1839030562, 4259657740, 2763975236, 1272893353, 4139469664, 3200236656,
  681279174, 3936430074, 3572445317, 76029189, 3654602809, 3873151461, 530742520, 3299628645,
  4096336452, 1126891415, 2878612391, 4237533241, 1700485571, 2399980690, 4293915773, 2240044497,
  1873313359, 4264355552, 2734768916, 1309151649, 4149444226, 3174756917, 718787259, 3951481745]

def md5S : List Nat := [
  7, 12, 17, 22, 7, 12, 17, 22, 7, 12, 17, 22, 7, 12, 17, 22,
  5, 9, 14, 20, 5, 9, 14, 20, 5, 9, 14, 20, 5, 9, 14, 20,
  4, 11, 16, 23, 4, 11, 16, 23, 4, 11, 16, 23, 4, 11, 16, 23,
  6, 10, 15, 21, 6, 10, 15, 21, 6, 10, 15, 21, 6, 10, 15, 21]

/-- Left rotation of a 32-bit word. -/
def rotl32 (x n : Nat) : Nat := ((x <<< n) ||| (x >>> (32 - n))) % 4294967296

/-- One MD5 round; `M g` is the `g`-th little-endian message word of the
current block and `st` the `(a, b, c, d)` state. -/
def md5Round (M : Nat → Nat) (st : Nat × Nat × Nat × Nat) (i : Nat) :
    Nat × Nat × Nat × Nat :=
  let a := st.1
  let b := st.2.1
  let c := st.2.2.1
  let d := st.2.2.2
  let fg : Nat × Nat :=
    if i < 16 then ((b &&& c) ||| ((b ^^^ 4294967295) &&& d), i)
    else if i < 32 then ((d &&& b) ||| ((d ^^^ 4294967295) &&& c), (5 * i + 1) % 16)
    else if i < 48 then (b ^^^ c ^^^ d, (3 * i + 5) % 16)
    else (c ^^^ (b ||| (d ^^^ 4294967295)), (7 * i) % 16)
  let f2 := (fg.1 + a + md5K.getD i 0 + M fg.2) % 4294967296
  (d, (b + rotl32 f2 (md5S.getD i 0)) % 4294967296, b, c)

/-- Process one 64-byte block. -/
def md5Block (st : Nat × Nat × Nat × Nat) (block : List Nat) :
    Nat × Nat × Nat × Nat :=
  let M : Nat → Nat := fun g =>
    block.getD (4 * g) 0 + 256 * block.getD (4 * g + 1) 0 +
      65536 * block.getD (4 * g + 2) 0 + 16777216 * block.getD (4 * g + 3) 0
  let r := (List.range 64).foldl (md5Round M) st
  ((st.1 + r.1) % 4294967296, (st.2.1 + r.2.1) % 4294967296,
    (st.2.2.1 + r.2.2.1) % 4294967296, (st.2.2.2 + r.2.2.2) % 4294967296)

/-- Little-endian byte rendering of `n` on `count` bytes. -/
def leBytes (n : Nat) : Nat → List Nat
  | 0 => []
  | k + 1 => n % 256 :: leBytes (n / 256) k

/-- MD5 padding: `0x80`, zeros to 56 mod 64, then the bit length on 8
little-endian bytes. -/
def md5Pad (msg : List Nat) : List Nat :=
  let zeros := (120 - (msg.length + 1) % 64) % 64
  msg ++ 128 :: List.replicate zeros 0 ++ leBytes ((8 * msg.length) % 18446744073709551616) 8

/-- Split a byte list into 64-byte chunks (fuelled so that it reduces by
kernel computation; the fuel is the list length, ample since every step
consumes at least one byte). -/
def chunks64Aux : Nat → List Nat → List (List Nat)
  | 0, _ => []
  | _, [] => []
  | fuel + 1, x :: xs => (x :: xs).take 64 :: chunks64Aux fuel ((x :: xs).drop 64)

/-- Split a byte list into 64-byte chunks. -/
def chunks64 (l : List Nat) : List (List Nat) := chunks64Aux l.length l

/-- MD5 digest of a byte list, as the four 32-bit state words. -/
def md5Digest (msg : List Nat) : Nat × Nat × Nat × Nat :=
  (chunks64 (md5Pad msg)).foldl md5Block (1732584193, 4023233417, 2562383102, 271733878)

def hexDigitChar (n : Nat) : Char := Nat.digitChar n

/-- Lowercase hexadecimal rendering of a byte list (`hexdigest`). -/
def bytesToHex : List Nat → List Char
  | [] => []
  | b :: rest => hexDigitChar (b / 16 % 16) :: hexDigitChar (b % 16) :: bytesToHex rest

/-- Little-endian byte serialization of a 32-bit word. -/
def wordLEBytes (w : Nat) : List Nat :=
  [w % 256, w / 256 % 256, w / 65536 % 256, w / 16777216 % 256]

/-- Characters of `hashlib.md5(bytes).hexdigest()`. -/
def md5HexChars (msg : List Nat) : List Char :=
  let d := md5Digest msg
  bytesToHex (wordLEBytes d.1 ++ wordLEBytes d.2.1 ++ wordLEBytes d.2.2.1 ++ wordLEBytes d.2.2.2)

/-- Source `generate_event_id(date, name)`: the first 16 hex characters of
the MD5 digest of `f"{date}_{name}"` encoded as UTF-8. -/
def generate_event_id (date name : String) : String :=
  String.mk ((md5HexChars (utf8Encode (date ++ "_" ++ name))).take 16)

/-! ## Data model -/

/-- The Event entity, exactly the dictionary built at lines 216–228 of
`fetch_calendar.py`.  `impact` and `status` are the literal strings the
source uses; optional provider strings keep Python's `None` as `none`. -/
structure Event where
  id : String
  date : String
  time : String
  name : String
  impact : String
  forecast : Option String
  actual : Option String
  previous : Option String
  status : String
  notification_sent_12h : Bool
  notification_sent_release : Bool
  deriving DecidableEq, Repr

/-- One raw provider row, carrying exactly the pieces
`fetch_calendar_events` reads from the markup: the `data-event-datetime`
attribute (empty string when absent), and the optional cell texts /
attributes (`none` when the element is missing). -/
structure RawRow where
  event_datetime : String
  flagCur : Option String
  img_key : Option String
  event : Option String
  time : Option String
  fore : Option String
  act : Option String
  prev : Option String
  deriving DecidableEq, Repr

/-- The persisted JSON document (`calendar_data.json`). -/
structure CalendarDoc where
  updated_at : Option String
  events : List Event
  deriving DecidableEq, Repr

/-! ## Event Normalizer (`fetch_calendar_events`, lines 138–234) -/

/-- Cleaning of `forecast`/`actual`/`previous` cells: strip, then map the
empty string and the lone no-break space to absent. -/
def cleanCell : Option String → Option String
  | none => none
  | some t =>
    let t' := pyStrip t
    if t' = "" ∨ t' = " " then none else some t'

/-- Normalization of one raw row (the body of the scraping loop); `none`
means the row is skipped by one of the `continue` filters.  `now` is the
fetch wall-clock instant in microseconds; the window is `[now, now + 28d]`. -/
def normRow (now : ℤ) (r : RawRow) : Option Event :=
  if r.event_datetime = "" then none
  else match parseDateTimeSlash r.event_datetime with
  | none => none
  | some (y, mo, d, h, mi, s) =>
    if ((microsOfDateTime y mo d h mi s : Nat) : ℤ) < now ∨
        ((microsOfDateTime y mo d h mi s : Nat) : ℤ) > now + microsPerWindow then none
    else match r.flagCur with
    | none => none
    | some cur =>
      if pyStrip cur ≠ "USD" then none
      else match r.img_key with
      | none => none
      | some key =>
        if key ≠ "bull2" ∧ key ≠ "bull3" then none
        else
          let impact := if key = "bull3" then "High" else "Medium"
          let name := wsCollapse (match r.event with
            | some t => pyStrip t
            | none => "Unknown Event")
          let etime := match r.time with
            | some t => pyStrip t
            | none => pad2 h ++ ":" ++ pad2 mi
          let actual := cleanCell r.act
          let event_date := pad4 y ++ "-" ++ pad2 mo ++ "-" ++ pad2 d
          some {
            id := generate_event_id event_date name
            date := event_date
            time := etime
            name := name
            impact := impact
            forecast := cleanCell r.fore
            actual := actual
            previous := cleanCell r.prev
            status := if optTruthy actual then "completed" else "upcoming"
            notification_sent_12h := false
            notification_sent_release := false }

/-- Source `fetch_calendar_events`, given the rows the transport returned:
each row is normalized or skipped, in order. -/
def fetch_calendar_events (now : ℤ) (rows : List RawRow) : List Event :=
  rows.filterMap (normRow now)

/-- The fetch stage including its `except` clause: a transport failure
(`none` response) yields the empty batch (line 243). -/
def fetchResultEvents (now : ℤ) (resp : Option (List RawRow)) : List Event :=
  match resp with
  | none => []
  | some rows => fetch_calendar_events now rows

/-! ## State Merger (`merge_with_existing`, lines 245–275) -/

/-- Lookup in the prior batch by id.  The source builds a dict by
comprehension, so for duplicate ids the last entry wins. -/
def findLastById : List Event → String → Option Event
  | [], _ => none
  | e :: rest, i =>
    match findLastById rest i with
    | some e' => some e'
    | none => if e.id = i then some e else none

/-- Merge of a single new event against the prior batch: carry both
notification flags forward verbatim, and force `completed` when the new
event has a truthy `actual` and the prior one did not. -/
def mergeOne (olds : List Event) (ne : Event) : Event :=
  match findLastById olds ne.id with
  | none => ne
  | some oldE =>
    let ne1 := { ne with
      notification_sent_12h := oldE.notification_sent_12h
      notification_sent_release := oldE.notification_sent_release }
    if optTruthy ne.actual && !optTruthy oldE.actual then
      { ne1 with status := "completed" }
    else ne1

/-- Source `merge_with_existing`: the loop over `new_events` appending each
merged event. -/
def merge_with_existing : List Event → List Event → List Event
  | [], _ => []
  | ne :: rest, olds => mergeOne olds ne :: merge_with_existing rest olds

/-! ## Numeric parsing for the deviation section (lines 347–360) -/

def digitsToNat (l : List Char) : Nat :=
  l.foldl (fun acc c => acc * 10 + charDigit c) 0

/-- Python `float(s)` on finite decimal literals, exactly as a rational:
optional surrounding whitespace, optional sign, digits with an optional
fractional part or a bare fractional part, optional decimal exponent.
Non-finite spellings (`inf`, `nan`) and digit-group underscores do not occur
in provider data and are treated as unparseable. -/
def pyFloat (s : String) : Option ℚ :=
  let l0 := (pyStrip s).data
  let signAndRest : ℤ × List Char :=
    match l0 with
    | '+' :: rest => (1, rest)
    | '-' :: rest => (-1, rest)
    | _ => (1, l0)
  let sign := signAndRest.1
  let l1 := signAndRest.2
  let ip := l1.takeWhile Char.isDigit
  let l2 := l1.dropWhile Char.isDigit
  let fracAndRest : List Char × List Char :=
    match l2 with
    | '.' :: rest => (rest.takeWhile Char.isDigit, rest.dropWhile Char.isDigit)
    | _ => ([], l2)
  let fp := fracAndRest.1
  let l3 := fracAndRest.2
  if ip = [] ∧ fp = [] then none
  else
    let mant : ℚ := ((digitsToNat (ip ++ fp) : ℚ)) / ((10 : ℚ) ^ fp.length)
    match l3 with
    | [] => some (sign * mant)
    | e :: rest =>
      if e = 'e' ∨ e = 'E' then
        let expSignRest : ℤ × List Char :=
          match rest with
          | '+' :: r => (1, r)
          | '-' :: r => (-1, r)
          | _ => (1, rest)
        let ed := expSignRest.2.takeWhile Char.isDigit
        let l4 := expSignRest.2.dropWhile Char.isDigit
        if ed = [] ∨ l4 ≠ [] then none
        else some (sign * mant * (10 : ℚ) ^ (expSignRest.1 * (digitsToNat ed : ℤ)))
      else none

/-- Python single-character `str.replace`. -/
def pyReplaceChar (s : String) (old : Char) (new : String) : String :=
  String.mk ((s.data.map (fun c => if c = old then new.data else [c])).flatten)

/-- The source's numeric coercion:
`float(s.replace('K', '000').replace('%', ''))`.  Note this is a textual
substitution of `K` by the digits `000`, not a multiplication by 1000. -/
def numericValue (s : String) : Option ℚ :=
  pyFloat (pyReplaceChar (pyReplaceChar s 'K' "000") '%' "")

/-- Lines 348–360 of `format_release_message`: the deviation section is
computed only when both `forecast` and `actual` are truthy and both coerce
numerically; it carries `(actual − forecast, percentage deviation)`, the
percentage being `0` when the parsed forecast is `0`. -/
def deviationSection (e : Event) : Option (ℚ × ℚ) :=
  if optTruthy e.forecast && optTruthy e.actual then
    match numericValue (e.forecast.getD ""), numericValue (e.actual.getD "") with
    | some fv, some av =>
      some (av - fv, if fv ≠ 0 then (av - fv) / fv * 100 else 0)
    | _, _ => none
  else none

/-! ## Message formatting -/

/-- Python `value or 'N/A'` on an optional string. -/
def orNA : Option String → String
  | none => "N/A"
  | some s => if s = "" then "N/A" else s

/-- Python f-string interpolation of an optional string (`None` prints as
the word `None`). -/
def strOrNone : Option String → String
  | none => "None"
  | some s => s

/-- Fixed-point rendering of a rational to one decimal place with an
explicit sign, standing in for Python's `f"{x:+.1f}"` (the tie-breaking of
binary float formatting is not modelled; message text is opaque to every
claim). -/
def renderSigned1 (q : ℚ) : String :=
  let t : ℤ := round (q * 10)
  (if t < 0 then "-" else "+") ++ toString (t.natAbs / 10) ++ "." ++ toString (t.natAbs % 10)

/-- Unsigned one-decimal rendering, for `f"{hours_until:.1f}"`. -/
def renderFixed1 (q : ℚ) : String :=
  let t : ℤ := round (q * 10)
  (if t < 0 then "-" else "") ++ toString (t.natAbs / 10) ++ "." ++ toString (t.natAbs % 10)

def impactEmoji (e : Event) : String := if e.impact = "High" then "🔴" else "🟡"

/-- Source `format_warning_message`. -/
def format_warning_message (e : Event) (hoursUntil : ℚ) : String :=
  "⚠️ <b>Upcoming Catalyst (" ++ renderFixed1 hoursUntil ++ "h)</b>\n\n" ++
    impactEmoji e ++ " <b>" ++ e.name ++ "</b>\n📅 " ++ e.date ++ " at " ++ e.time ++
    "\n📊 Forecast: <b>" ++ orNA e.forecast ++ "</b>\n⚡ Impact: <b>" ++ e.impact ++ "</b>"

/-- Source `format_release_message`; the deviation line is inserted exactly
when `deviationSection` produced a value. -/
def format_release_message (e : Event) : String :=
  let devText := match deviationSection e with
    | none => ""
    | some dp =>
      "\n" ++ (if dp.1 > 0 then "🟢" else "🔴") ++ " Deviation: " ++
        renderSigned1 dp.1 ++ " (" ++ renderSigned1 dp.2 ++ "%)"
  "📢 <b>Data Release</b>\n\n" ++ impactEmoji e ++ " <b>" ++ e.name ++
    "</b>\n📊 Actual: <b>" ++ strOrNone e.actual ++ "</b>\n🎯 Forecast: " ++
    orNA e.forecast ++ "\n📍 Previous: " ++ orNA e.previous ++ devText ++
    "\n\n⏰ Released: " ++ e.date ++ " " ++ e.time

/-! ## Notification Evaluator (`check_and_send_notifications`, lines 277–327) -/

inductive Trigger where
  | A
  | B
  deriving DecidableEq, Repr, BEq

/-- One delivery attempt: the event id it was for, which trigger, and the
boolean the notification sink returned. -/
structure Fire where
  id : String
  trig : Trigger
  ok : Bool
  deriving DecidableEq, Repr, BEq

/-- Hours to the event from the evaluation instant,
`(event_datetime - now).total_seconds() / 3600`. -/
def hoursUntil (now tEv : ℤ) : ℚ :=
  ((tEv - now : ℤ) : ℚ) / ((microsPerHour : ℤ) : ℚ)

/-- Trigger A's firing condition (line 302): within the 12-hour window,
warning not yet sent, High impact only. -/
def condA (now tEv : ℤ) (e : Event) : Bool :=
  decide (0 ≤ hoursUntil now tEv) && decide (hoursUntil now tEv ≤ 12) &&
    !e.notification_sent_12h && (e.impact == "High")

/-- Trigger B's firing condition (line 312): completed with a truthy actual,
release not yet sent, High impact only. -/
def condB (e : Event) : Bool :=
  (e.status == "completed") && optTruthy e.actual &&
    !e.notification_sent_release && (e.impact == "High")

/-- Trigger A: when eligible, format and attempt delivery; the flag flips
only on a successful send. -/
def triggerAStep (send : String → Bool) (now tEv : ℤ) (e : Event) :
    Event × List Fire :=
  if condA now tEv e then
    let ok := send (format_warning_message e (hoursUntil now tEv))
    ((if ok then { e with notification_sent_12h := true } else e),
      [⟨e.id, Trigger.A, ok⟩])
  else (e, [])

/-- Trigger B: when eligible, format and attempt delivery; the flag flips
only on a successful send. -/
def triggerBStep (send : String → Bool) (e : Event) : Event × List Fire :=
  if condB e then
    let ok := send (format_release_message e)
    ((if ok then { e with notification_sent_release := true } else e),
      [⟨e.id, Trigger.B, ok⟩])
  else (e, [])

/-- Evaluation of a single event: parse the combined `date time` string; on
failure the `except` branch appends the event unchanged; otherwise run
Trigger A then Trigger B on the possibly-updated event.  `send` is the
notification sink applied to the formatted message. -/
def evalEvent (send : String → Bool) (now : ℤ) (e : Event) : Event × List Fire :=
  match parseDateTimeHM (e.date ++ " " ++ e.time) with
  | none => (e, [])
  | some tEv =>
    let a := triggerAStep send now tEv e
    let b := triggerBStep send a.1
    (b.1, a.2 ++ b.2)

/-- Source `check_and_send_notifications` over the event list, also
returning the delivery attempts in order. -/
def check_and_send_notifications (send : String → Bool) (now : ℤ) :
    List Event → List Event × List Fire
  | [] => ([], [])
  | e :: rest =>
    let r := evalEvent send now e
    let rr := check_and_send_notifications send now rest
    (r.1 :: rr.1, r.2 ++ rr.2)

/-! ## Pipeline (`main`, lines 410–443) -/

/-- One scheduled run of `main`, starting from the persisted document:
if the fetch produced no events the run returns early and the document is
untouched; otherwise merge, evaluate notifications, and persist with a fresh
`updated_at` stamp `ts`. -/
def mainRun (prior : CalendarDoc) (fetched : List Event) (send : String → Bool)
    (now : ℤ) (ts : String) : CalendarDoc × List Fire :=
  if fetched.isEmpty then (prior, [])
  else
    let merged := merge_with_existing fetched prior.events
    let r := check_and_send_notifications send now merged
    ({ updated_at := some ts, events := r.1 }, r.2)

/-- The varying inputs of one run: the fetched batch, the notification
sink's behaviour, the evaluation wall-clock instant, and the persistence
timestamp. -/
structure RunInput where
  fetched : List Event
  send : String → Bool
  now : ℤ
  ts : String

/-- A sequence of runs of the pipeline, each loading the document the
previous run persisted; all delivery attempts are accumulated. -/
def runSeq : CalendarDoc → List RunInput → CalendarDoc × List Fire
  | doc, [] => (doc, [])
  | doc, r :: rs =>
    let step := mainRun doc r.fetched r.send r.now r.ts
    let rest := runSeq step.1 rs
    (rest.1, step.2 ++ rest.2)

/-- Number of delivery attempts recorded for a given event id and trigger. -/
def countFires (fs : List Fire) (i : String) (t : Trigger) : Nat :=
  fs.countP (fun f => f.id == i && f.trig == t)

/-- The notification flag a trigger governs. -/
def flagOf : Trigger → Event → Bool
  | Trigger.A, e => e.notification_sent_12h
  | Trigger.B, e => e.notification_sent_release

/-! ## The specification's reading of suffix handling (for comparison)

The spec sentence for the deviation section reads the `K` suffix as a
multiplication of the numeric value by 1000 and the `%` suffix as stripped.
This definition follows those words, to be compared with `numericValue`,
which embeds the source's textual `replace('K', '000')`. -/

/-- Numeric coercion as the specification words it: a trailing `K`
multiplies the parsed prefix by 1000; a trailing `%` is stripped. -/
def specSuffixNumericValue (s : String) : Option ℚ :=
  if s.data.getLast? = some 'K' then
    (pyFloat (String.mk s.data.dropLast)).map (fun q => q * 1000)
  else if s.data.getLast? = some '%' then pyFloat (String.mk s.data.dropLast)
  else pyFloat s

/-! ## Concrete fixtures used by witnesses and counterexamples -/

/-- A High-impact upcoming event, 2025-06-10 13:30, forecast `0.3%`. -/
def evCPI : Event :=
  { id := "x", date := "2025-06-10", time := "13:30", name := "CPI m/m",
    impact := "High", forecast := some "0.3%", actual := none,
    previous := some "0.2%", status := "upcoming",
    notification_sent_12h := false, notification_sent_release := false }

/-- The same event once the actual `0.4%` is released. -/
def evCPIdone : Event :=
  { evCPI with actual := some "0.4%", status := "completed" }

/-- A released event whose display time (`All Day`) does not parse. -/
def evAllDayB : Event :=
  { evCPI with time := "All Day", actual := some "0.4%", status := "completed" }

/-- A prior entry for id `x` whose warning flag is already true. -/
def evPriorTrue : Event :=
  { evCPI with notification_sent_12h := true }

/-- A prior completed entry for id `x` carrying an actual value. -/
def evOldDone : Event :=
  { evCPI with actual := some "0.4%", status := "completed" }

/-- An unrelated event with id `y` (unparseable time, so it never fires). -/
def evOther : Event :=
  { evCPI with id := "y", name := "Other", time := "All Day" }

/-- The deviation counterexample event: forecast `1.5K`, actual `3K`. -/
def evKdev : Event :=
  { evCPIdone with forecast := some "1.5K", actual := some "3K" }

/-- Fetch instant 2025-06-10 00:00:00, in microseconds. -/
def tFetch : ℤ := (microsOfDateTime 2025 6 10 0 0 0 : Nat)

/-- Evaluation instant 2025-06-10 07:30:00 (six hours before the event). -/
def tEval : ℤ := (microsOfDateTime 2025 6 10 7 30 0 : Nat)

/-- The event's scheduled instant 2025-06-10 13:30:00. -/
def tCPI : ℤ := (microsOfDateTime 2025 6 10 13 30 0 : Nat)

/-- A raw provider row for the 13:30 CPI event. -/
def rowCPI1 : RawRow :=
  { event_datetime := "2025/06/10 13:30:00", flagCur := some " USD ",
    img_key := some "bull3", event := some " CPI   m/m ", time := some "13:30",
    fore := some "0.3%", act := none, prev := some "0.2%" }

/-- A second raw row with the same date and name but at 20:00. -/
def rowCPI2 : RawRow :=
  { rowCPI1 with event_datetime := "2025/06/10 20:00:00", time := some "20:00" }

/-- A notification sink that always succeeds. -/
def sendTrue : String → Bool := fun _ => true

/-- The empty persisted document of a first run. -/
def docEmpty : CalendarDoc := { updated_at := none, events := [] }

/-- A run fetching the CPI event, with succeeding delivery, six hours out. -/
def runA : RunInput :=
  { fetched := [evCPI], send := sendTrue, now := tEval, ts := "t1" }

/-- A run whose fetch misses id `x` (only the unrelated `y` event). -/
def runB : RunInput :=
  { fetched := [evOther], send := sendTrue, now := tEval, ts := "t2" }

/-! ## Lemmas: merger -/

lemma mergeOne_of_none {olds : List Event} {ne : Event}
    (h : findLastById olds ne.id = none) : mergeOne olds ne = ne := by
  unfold mergeOne
  rw [h]

lemma mergeOne_of_some {olds : List Event} {ne oe : Event}
    (h : findLastById olds ne.id = some oe) :
    mergeOne olds ne =
      if optTruthy ne.actual && !optTruthy oe.actual then
        { ne with notification_sent_12h := oe.notification_sent_12h,
                  notification_sent_release := oe.notification_sent_release,
                  status := "completed" }
      else
        { ne with notification_sent_12h := oe.notification_sent_12h,
                  notification_sent_release := oe.notification_sent_release } := by
  unfold mergeOne
  rw [h]

lemma mergeOne_id (olds : List Event) (ne : Event) : (mergeOne olds ne).id = ne.id := by
  cases h : findLastById olds ne.id with
  | none => rw [mergeOne_of_none h]
  | some oe => rw [mergeOne_of_some h]; split <;> rfl

lemma mergeOne_base_fields (olds : List Event) (ne : Event) :
    (mergeOne olds ne).id = ne.id ∧ (mergeOne olds ne).date = ne.date ∧
    (mergeOne olds ne).time = ne.time ∧ (mergeOne olds ne).name = ne.name ∧
    (mergeOne olds ne).impact = ne.impact ∧ (mergeOne olds ne).forecast = ne.forecast ∧
    (mergeOne olds ne).actual = ne.actual ∧ (mergeOne olds ne).previous = ne.previous := by
  cases h : findLastById olds ne.id with
  | none => rw [mergeOne_of_none h]; exact ⟨rfl, rfl, rfl, rfl, rfl, rfl, rfl, rfl⟩
  | some oe => rw [mergeOne_of_some h]; split <;> exact ⟨rfl, rfl, rfl, rfl, rfl, rfl, rfl, rfl⟩

lemma mergeOne_flags {olds : List Event} {ne oe : Event}
    (h : findLastById olds ne.id = some oe) :
    (mergeOne olds ne).notification_sent_12h = oe.notification_sent_12h ∧
    (mergeOne olds ne).notification_sent_release = oe.notification_sent_release := by
  rw [mergeOne_of_some h]; split <;> exact ⟨rfl, rfl⟩

lemma mergeOne_status {olds : List Event} {ne oe : Event}
    (h : findLastById olds ne.id = some oe) :
    (mergeOne olds ne).status =
      (if optTruthy ne.actual && !optTruthy oe.actual then "completed" else ne.status) := by
  rw [mergeOne_of_some h]
  split
  · rfl
  · rfl

lemma merge_eq_map (new olds : List Event) :
    merge_with_existing new olds = new.map (mergeOne olds) := by
  induction new with
  | nil => rfl
  | cons x xs ih => simp [merge_with_existing, ih]

/-! ## Lemmas: lookup by id -/

lemma findLastById_cons (x : Event) (xs : List Event) (i : String) :
    findLastById (x :: xs) i =
      match findLastById xs i with
      | some e' => some e'
      | none => if x.id = i then some x else none := rfl

lemma findLastById_id : ∀ {l : List Event} {i : String} {e : Event},
    findLastById l i = some e → e.id = i := by
  intro l
  induction l with
  | nil => intro i e h; simp [findLastById] at h
  | cons x xs ih =>
    intro i e h
    rw [findLastById_cons] at h
    cases hr : findLastById xs i with
    | some e' => simp only [hr] at h; cases h; exact ih hr
    | none =>
      simp only [hr] at h
      split at h
      · cases h; assumption
      · cases h

lemma findLastById_mem : ∀ {l : List Event} {i : String} {e : Event},
    findLastById l i = some e → e ∈ l := by
  intro l
  induction l with
  | nil => intro i e h; simp [findLastById] at h
  | cons x xs ih =>
    intro i e h
    rw [findLastById_cons] at h
    cases hr : findLastById xs i with
    | some e' => simp only [hr] at h; cases h; exact List.mem_cons_of_mem _ (ih hr)
    | none =>
      simp only [hr] at h
      split at h
      · cases h; exact List.mem_cons_self x xs
      · cases h

lemma findLastById_none_iff : ∀ {l : List Event} {i : String},
    findLastById l i = none ↔ ∀ e ∈ l, e.id ≠ i := by
  intro l
  induction l with
  | nil => intro i; simp [findLastById]
  | cons x xs ih =>
    intro i
    rw [findLastById_cons]
    cases hr : findLastById xs i with
    | some e' =>
      simp only [List.mem_cons]
      constructor
      · intro h; cases h
      · intro h
        exact absurd (findLastById_id hr) (h e' (Or.inr (findLastById_mem hr)))
    | none =>
      have hx := ih.mp hr
      dsimp only
      by_cases hxi : x.id = i
      · rw [if_pos hxi]
        constructor
        · intro h; cases h
        · intro h; exact absurd hxi (h x (List.mem_cons_self x xs))
      · rw [if_neg hxi]
        constructor
        · intro _ e he
          rcases List.mem_cons.mp he with rfl | hmem
          · exact hxi
          · exact hx e hmem
        · intro _; rfl

lemma findLastById_isSome_of_countP {l : List Event} {i : String}
    (h : 0 < l.countP (fun e => e.id == i)) : ∃ oe, findLastById l i = some oe := by
  cases hr : findLastById l i with
  | some oe => exact ⟨oe, rfl⟩
  | none =>
    rcases List.countP_pos_iff.mp h with ⟨e, hmem, he⟩
    exact absurd (beq_iff_eq.mp he) (findLastById_none_iff.mp hr e hmem)

lemma findLastById_map {f : Event → Event} (hf : ∀ e, (f e).id = e.id) :
    ∀ (l : List Event) (i : String),
      findLastById (l.map f) i = (findLastById l i).map f := by
  intro l
  induction l with
  | nil => intro i; rfl
  | cons x xs ih =>
    intro i
    simp only [List.map_cons]
    rw [findLastById_cons, findLastById_cons, ih]
    cases hr : findLastById xs i with
    | some e' => rfl
    | none =>
      simp only [Option.map]
      rw [hf x]
      by_cases hxi : x.id = i
      · rw [if_pos hxi, if_pos hxi]
      · rw [if_neg hxi, if_neg hxi]

lemma countP_merge (new olds : List Event) (i : String) :
    (merge_with_existing new olds).countP (fun e => e.id == i) =
      new.countP (fun e => e.id == i) := by
  rw [merge_eq_map, List.countP_map]
  refine List.countP_congr ?_
  intro e _
  simp [Function.comp, mergeOne_id]

/-! ## Lemmas: single-event evaluation -/

lemma triggerAStep_eq (s : String → Bool) (n t : ℤ) (e : Event) :
    triggerAStep s n t e =
      if condA n t e then
        ((if s (format_warning_message e (hoursUntil n t)) then
            { e with notification_sent_12h := true } else e),
          [⟨e.id, Trigger.A, s (format_warning_message e (hoursUntil n t))⟩])
      else (e, []) := rfl

lemma triggerBStep_eq (s : String → Bool) (e : Event) :
    triggerBStep s e =
      if condB e then
        ((if s (format_release_message e) then
            { e with notification_sent_release := true } else e),
          [⟨e.id, Trigger.B, s (format_release_message e)⟩])
      else (e, []) := rfl

lemma condA_flag {n t : ℤ} {e : Event} (h : condA n t e = true) :
    e.notification_sent_12h = false := by
  simp only [condA, Bool.and_eq_true, Bool.not_eq_true'] at h
  exact h.1.2

lemma condB_flag {e : Event} (h : condB e = true) :
    e.notification_sent_release = false := by
  simp only [condB, Bool.and_eq_true, Bool.not_eq_true'] at h
  exact h.1.2

lemma triggerAStep_fst_id (s : String → Bool) (n t : ℤ) (e : Event) :
    (triggerAStep s n t e).1.id = e.id := by
  rw [triggerAStep_eq]
  split
  · split <;> rfl
  · rfl

lemma triggerBStep_fst_id (s : String → Bool) (e : Event) :
    (triggerBStep s e).1.id = e.id := by
  rw [triggerBStep_eq]
  split
  · split <;> rfl
  · rfl

lemma triggerAStep_fst_flagB (s : String → Bool) (n t : ℤ) (e : Event) :
    (triggerAStep s n t e).1.notification_sent_release =
      e.notification_sent_release := by
  rw [triggerAStep_eq]
  split
  · split <;> rfl
  · rfl

lemma triggerBStep_fst_flagA (s : String → Bool) (e : Event) :
    (triggerBStep s e).1.notification_sent_12h = e.notification_sent_12h := by
  rw [triggerBStep_eq]
  split
  · split <;> rfl
  · rfl

lemma triggerAStep_fst_flagA (s : String → Bool) (n t : ℤ) (e : Event) :
    (triggerAStep s n t e).1.notification_sent_12h =
      (condA n t e && s (format_warning_message e (hoursUntil n t))
        || e.notification_sent_12h) := by
  rw [triggerAStep_eq]
  by_cases hc : condA n t e = true
  · rw [if_pos hc, hc, condA_flag hc]
    split
    · next hs => rw [hs]; rfl
    · next hs => rw [Bool.not_eq_true] at hs; rw [hs]; simpa using condA_flag hc
  · rw [Bool.not_eq_true] at hc
    rw [hc, if_neg (by simp)]
    rfl

lemma triggerBStep_fst_flagB (s : String → Bool) (e : Event) :
    (triggerBStep s e).1.notification_sent_release =
      (condB e && s (format_release_message e)
        || e.notification_sent_release) := by
  rw [triggerBStep_eq]
  by_cases hc : condB e = true
  · rw [if_pos hc, hc, condB_flag hc]
    split
    · next hs => rw [hs]; rfl
    · next hs => rw [Bool.not_eq_true] at hs; rw [hs]; simpa using condB_flag hc
  · rw [Bool.not_eq_true] at hc
    rw [hc, if_neg (by simp)]
    rfl

lemma triggerAStep_snd (s : String → Bool) (n t : ℤ) (e : Event) :
    (triggerAStep s n t e).2 =
      (if condA n t e then
        [⟨e.id, Trigger.A, s (format_warning_message e (hoursUntil n t))⟩]
      else ([] : List Fire)) := by
  rw [triggerAStep_eq]
  split <;> rfl

lemma triggerBStep_snd (s : String → Bool) (e : Event) :
    (triggerBStep s e).2 =
      (if condB e then
        [⟨e.id, Trigger.B, s (format_release_message e)⟩]
      else ([] : List Fire)) := by
  rw [triggerBStep_eq]
  split <;> rfl

lemma triggerBStep_condB_unchanged (s : String → Bool) (n t : ℤ) (e : Event) :
    condB (triggerAStep s n t e).1 = condB e := by
  rw [triggerAStep_eq]
  split
  · split
    · rfl
    · rfl
  · rfl

lemma evalEvent_of_parse_none {s : String → Bool} {n : ℤ} {e : Event}
    (h : parseDateTimeHM (e.date ++ " " ++ e.time) = none) :
    evalEvent s n e = (e, []) := by
  unfold evalEvent
  rw [h]

lemma evalEvent_of_parse_some {s : String → Bool} {n : ℤ} {e : Event} {tEv : ℤ}
    (h : parseDateTimeHM (e.date ++ " " ++ e.time) = some tEv) :
    evalEvent s n e =
      ((triggerBStep s (triggerAStep s n tEv e).1).1,
        (triggerAStep s n tEv e).2 ++ (triggerBStep s (triggerAStep s n tEv e).1).2) := by
  unfold evalEvent
  rw [h]

lemma evalEvent_fst_id (s : String → Bool) (n : ℤ) (e : Event) :
    (evalEvent s n e).1.id = e.id := by
  cases h : parseDateTimeHM (e.date ++ " " ++ e.time) with
  | none => rw [evalEvent_of_parse_none h]
  | some tEv =>
    rw [evalEvent_of_parse_some h]
    exact (triggerBStep_fst_id s _).trans (triggerAStep_fst_id s n tEv e)

lemma evalEvent_fires_id {s : String → Bool} {n : ℤ} {e : Event} :
    ∀ f ∈ (evalEvent s n e).2, f.id = e.id := by
  intro f hf
  cases h : parseDateTimeHM (e.date ++ " " ++ e.time) with
  | none => rw [evalEvent_of_parse_none h] at hf; cases hf
  | some tEv =>
    rw [evalEvent_of_parse_some h] at hf
    rcases List.mem_append.mp hf with hA | hB
    · rw [triggerAStep_snd] at hA
      split at hA
      · rcases List.mem_singleton.mp hA with rfl; rfl
      · cases hA
    · rw [triggerBStep_snd] at hB
      split at hB
      · rcases List.mem_singleton.mp hB with rfl
        exact triggerAStep_fst_id s n tEv e
      · cases hB

/-! ## Lemmas: counting delivery attempts -/

lemma countFires_append (a b : List Fire) (i : String) (t : Trigger) :
    countFires (a ++ b) i t = countFires a i t + countFires b i t :=
  List.countP_append _ _ _

lemma countFires_A_of_triggerB (s : String → Bool) (e : Event) (i : String) :
    countFires (triggerBStep s e).2 i Trigger.A = 0 := by
  rw [triggerBStep_snd]
  split <;>
    simp [countFires, List.countP_cons, show (Trigger.B == Trigger.A) = false from rfl]

lemma countFires_B_of_triggerA (s : String → Bool) (n t' : ℤ) (e : Event) (i : String) :
    countFires (triggerAStep s n t' e).2 i Trigger.B = 0 := by
  rw [triggerAStep_snd]
  split <;>
    simp [countFires, List.countP_cons, show (Trigger.A == Trigger.B) = false from rfl]

lemma countFires_triggerA (s : String → Bool) (n t' : ℤ) (e : Event) (i : String) :
    countFires (triggerAStep s n t' e).2 i Trigger.A =
      if condA n t' e = true ∧ e.id = i then 1 else 0 := by
  rw [triggerAStep_snd]
  by_cases hc : condA n t' e = true
  · rw [if_pos hc]
    by_cases hi : e.id = i
    · rw [if_pos ⟨hc, hi⟩]
      simp [countFires, List.countP_cons, hi, show (Trigger.A == Trigger.A) = true from rfl]
    · rw [if_neg (fun hh => hi hh.2)]
      simp [countFires, List.countP_cons, hi]
  · rw [if_neg hc, if_neg (fun hh => hc hh.1)]
    rfl

lemma countFires_triggerB (s : String → Bool) (e : Event) (i : String) :
    countFires (triggerBStep s e).2 i Trigger.B =
      if condB e = true ∧ e.id = i then 1 else 0 := by
  rw [triggerBStep_snd]
  by_cases hc : condB e = true
  · rw [if_pos hc]
    by_cases hi : e.id = i
    · rw [if_pos ⟨hc, hi⟩]
      simp [countFires, List.countP_cons, hi, show (Trigger.B == Trigger.B) = true from rfl]
    · rw [if_neg (fun hh => hi hh.2)]
      simp [countFires, List.countP_cons, hi]
  · rw [if_neg hc, if_neg (fun hh => hc hh.1)]
    rfl

lemma evalEvent_countA {s : String → Bool} {n : ℤ} {e : Event} {tEv : ℤ}
    (h : parseDateTimeHM (e.date ++ " " ++ e.time) = some tEv) (i : String) :
    countFires (evalEvent s n e).2 i Trigger.A =
      if condA n tEv e = true ∧ e.id = i then 1 else 0 := by
  rw [evalEvent_of_parse_some h, countFires_append, countFires_triggerA,
    countFires_A_of_triggerB]
  exact Nat.add_zero _

lemma evalEvent_countB {s : String → Bool} {n : ℤ} {e : Event} {tEv : ℤ}
    (h : parseDateTimeHM (e.date ++ " " ++ e.time) = some tEv) (i : String) :
    countFires (evalEvent s n e).2 i Trigger.B =
      if condB e = true ∧ e.id = i then 1 else 0 := by
  rw [evalEvent_of_parse_some h, countFires_append, countFires_B_of_triggerA,
    countFires_triggerB, triggerBStep_condB_unchanged, triggerAStep_fst_id]
  exact Nat.zero_add _

lemma evalEvent_count_le_one (s : String → Bool) (n : ℤ) (e : Event)
    (i : String) (t : Trigger) : countFires (evalEvent s n e).2 i t ≤ 1 := by
  cases h : parseDateTimeHM (e.date ++ " " ++ e.time) with
  | none => rw [evalEvent_of_parse_none h]; exact Nat.zero_le 1
  | some tEv =>
    cases t with
    | A => rw [evalEvent_countA h]; split <;> omega
    | B => rw [evalEvent_countB h]; split <;> omega

lemma evalEvent_count_of_ne {s : String → Bool} {n : ℤ} {e : Event}
    {i : String} (t : Trigger) (hne : e.id ≠ i) :
    countFires (evalEvent s n e).2 i t = 0 := by
  cases h : parseDateTimeHM (e.date ++ " " ++ e.time) with
  | none => rw [evalEvent_of_parse_none h]; rfl
  | some tEv =>
    cases t with
    | A => rw [evalEvent_countA h, if_neg (fun hh => hne hh.2)]
    | B => rw [evalEvent_countB h, if_neg (fun hh => hne hh.2)]

lemma condA_false_of_flagA {n t' : ℤ} {e : Event}
    (h : e.notification_sent_12h = true) : condA n t' e = false := by
  simp [condA, h]

lemma condB_false_of_flagB {e : Event}
    (h : e.notification_sent_release = true) : condB e = false := by
  simp [condB, h]

lemma evalEvent_fst_flagA (s : String → Bool) (n : ℤ) (e : Event) :
    (evalEvent s n e).1.notification_sent_12h = true ∨
      (evalEvent s n e).1.notification_sent_12h = e.notification_sent_12h := by
  cases h : parseDateTimeHM (e.date ++ " " ++ e.time) with
  | none => right; rw [evalEvent_of_parse_none h]
  | some tEv =>
    rw [evalEvent_of_parse_some h]
    rw [show ((triggerBStep s (triggerAStep s n tEv e).1).1,
        (triggerAStep s n tEv e).2 ++
          (triggerBStep s (triggerAStep s n tEv e).1).2).1 =
        (triggerBStep s (triggerAStep s n tEv e).1).1 from rfl]
    rw [triggerBStep_fst_flagA, triggerAStep_fst_flagA]
    cases hb : (condA n tEv e && s (format_warning_message e (hoursUntil n tEv))) with
    | false => right; rfl
    | true => left; rfl

lemma evalEvent_flag_mono (t : Trigger) (s : String → Bool) (n : ℤ) (e : Event)
    (hf : flagOf t e = true) :
    flagOf t (evalEvent s n e).1 = true ∧
      ∀ i, countFires (evalEvent s n e).2 i t = 0 := by
  cases h : parseDateTimeHM (e.date ++ " " ++ e.time) with
  | none =>
    rw [evalEvent_of_parse_none h]
    exact ⟨hf, fun i => rfl⟩
  | some tEv =>
    cases t with
    | A =>
      have hc : condA n tEv e = false := condA_false_of_flagA hf
      constructor
      · rw [evalEvent_of_parse_some h]
        show (triggerBStep s (triggerAStep s n tEv e).1).1.notification_sent_12h = true
        rw [triggerBStep_fst_flagA, triggerAStep_fst_flagA, hc]
        simpa using hf
      · intro i
        rw [evalEvent_countA h, if_neg]
        intro hh
        rw [hc] at hh
        cases hh.1
    | B =>
      have hc : condB e = false := condB_false_of_flagB hf
      constructor
      · rw [evalEvent_of_parse_some h]
        show (triggerBStep s (triggerAStep s n tEv e).1).1.notification_sent_release = true
        rw [triggerBStep_fst_flagB, triggerBStep_condB_unchanged, hc,
          triggerAStep_fst_flagB]
        simpa using hf
      · intro i
        rw [evalEvent_countB h, if_neg]
        intro hh
        rw [hc] at hh
        cases hh.1

lemma evalEvent_fire_sets_flag (t : Trigger) {s : String → Bool} {n : ℤ}
    {e : Event} (hs : ∀ m, s m = true)
    (h1 : 1 ≤ countFires (evalEvent s n e).2 e.id t) :
    flagOf t (evalEvent s n e).1 = true := by
  cases h : parseDateTimeHM (e.date ++ " " ++ e.time) with
  | none =>
    rw [evalEvent_of_parse_none h] at h1
    cases h1
  | some tEv =>
    cases t with
    | A =>
      rw [evalEvent_countA h] at h1
      have hc : condA n tEv e = true := by
        by_cases hcc : condA n tEv e = true
        · exact hcc
        · rw [if_neg (fun hh => hcc hh.1)] at h1; cases h1
      rw [evalEvent_of_parse_some h]
      show (triggerBStep s (triggerAStep s n tEv e).1).1.notification_sent_12h = true
      rw [triggerBStep_fst_flagA, triggerAStep_fst_flagA, hc, hs _]
      rfl
    | B =>
      rw [evalEvent_countB h] at h1
      have hc : condB e = true := by
        by_cases hcc : condB e = true
        · exact hcc
        · rw [if_neg (fun hh => hcc hh.1)] at h1; cases h1
      rw [evalEvent_of_parse_some h]
      show (triggerBStep s (triggerAStep s n tEv e).1).1.notification_sent_release = true
      rw [triggerBStep_fst_flagB, triggerBStep_condB_unchanged, hc, hs _]
      rfl

/-! ## Lemmas: evaluation over an event list -/

lemma csn_cons (s : String → Bool) (n : ℤ) (e : Event) (l : List Event) :
    check_and_send_notifications s n (e :: l) =
      ((evalEvent s n e).1 :: (check_and_send_notifications s n l).1,
        (evalEvent s n e).2 ++ (check_and_send_notifications s n l).2) := rfl

lemma csn_fst_map (s : String → Bool) (n : ℤ) (l : List Event) :
    (check_and_send_notifications s n l).1 =
      l.map (fun e => (evalEvent s n e).1) := by
  induction l with
  | nil => rfl
  | cons e l ih => rw [csn_cons, List.map_cons, ih]

lemma countP_map_id_pres {f : Event → Event} (hf : ∀ e, (f e).id = e.id)
    (l : List Event) (i : String) :
    (l.map f).countP (fun e => e.id == i) = l.countP (fun e => e.id == i) := by
  rw [List.countP_map]
  exact List.countP_congr (fun e _ => by simp [Function.comp, hf])

lemma csn_count_le_countP (s : String → Bool) (n : ℤ) (l : List Event)
    (i : String) (t : Trigger) :
    countFires (check_and_send_notifications s n l).2 i t ≤
      l.countP (fun e => e.id == i) := by
  induction l with
  | nil => exact Nat.le_refl 0
  | cons e l ih =>
    rw [csn_cons]
    show countFires ((evalEvent s n e).2 ++ _) i t ≤ _
    rw [countFires_append, List.countP_cons]
    by_cases hei : e.id = i
    · have h1 := evalEvent_count_le_one s n e i t
      simp only [hei, beq_self_eq_true, if_pos]
      omega
    · rw [evalEvent_count_of_ne t hei]
      have : (e.id == i) = false := beq_eq_false_iff_ne.mpr hei
      rw [this]
      omega

lemma csn_flags_true (s : String → Bool) (n : ℤ) (t : Trigger) (i : String) :
    ∀ l : List Event, (∀ e ∈ l, e.id = i → flagOf t e = true) →
      countFires (check_and_send_notifications s n l).2 i t = 0 ∧
        ∀ e' ∈ (check_and_send_notifications s n l).1, e'.id = i →
          flagOf t e' = true := by
  intro l
  induction l with
  | nil => intro _; exact ⟨rfl, by intro e' he'; cases he'⟩
  | cons e l ih =>
    intro h
    have hrest := ih (fun x hx => h x (List.mem_cons_of_mem e hx))
    rw [csn_cons]
    constructor
    · show countFires ((evalEvent s n e).2 ++ _) i t = 0
      rw [countFires_append, hrest.1]
      by_cases hei : e.id = i
      · rw [(evalEvent_flag_mono t s n e (h e (List.mem_cons_self e l) hei)).2 i]
      · rw [evalEvent_count_of_ne t hei]
    · intro e' he' hid
      rcases List.mem_cons.mp he' with rfl | hmem
      · have hei : e.id = i := by rw [← evalEvent_fst_id s n e]; exact hid
        exact (evalEvent_flag_mono t s n e (h e (List.mem_cons_self e l) hei)).1
      · exact hrest.2 e' hmem hid

lemma csn_fired_flags (s : String → Bool) (n : ℤ) (t : Trigger) (i : String)
    (hs : ∀ m, s m = true) :
    ∀ l : List Event, l.countP (fun e => e.id == i) = 1 →
      1 ≤ countFires (check_and_send_notifications s n l).2 i t →
      ∀ e' ∈ (check_and_send_notifications s n l).1, e'.id = i →
        flagOf t e' = true := by
  intro l
  induction l with
  | nil => intro _ h1; cases h1
  | cons e l ih =>
    intro hcount h1 e' he' hid
    rw [csn_cons] at h1 he'
    rw [List.countP_cons] at hcount
    by_cases hei : e.id = i
    · have hbeq : (e.id == i) = true := beq_iff_eq.mpr hei
      rw [hbeq, if_pos rfl] at hcount
      have hl0 : l.countP (fun e => e.id == i) = 0 := by omega
      have hrest0 : countFires (check_and_send_notifications s n l).2 i t = 0 :=
        Nat.le_antisymm (hl0 ▸ csn_count_le_countP s n l i t) (Nat.zero_le _)
      rw [countFires_append, hrest0, Nat.add_zero] at h1
      rcases List.mem_cons.mp he' with rfl | hmem
      · rw [← hei] at h1
        exact evalEvent_fire_sets_flag t hs h1
      · exfalso
        rw [csn_fst_map] at hmem
        rcases List.mem_map.mp hmem with ⟨x, hx, rfl⟩
        have : x.id ≠ i := by
          intro hxi
          have := List.countP_eq_zero.mp hl0 x hx
          exact this (beq_iff_eq.mpr hxi)
        exact this (by rw [← evalEvent_fst_id s n x]; exact hid)
    · have hbeq : (e.id == i) = false := beq_eq_false_iff_ne.mpr hei
      rw [hbeq] at hcount
      simp only [Bool.false_eq_true, if_false, Nat.add_zero] at hcount
      rw [countFires_append, evalEvent_count_of_ne t hei, Nat.zero_add] at h1
      rcases List.mem_cons.mp he' with rfl | hmem
      · exact absurd (by rw [← evalEvent_fst_id s n e]; exact hid) hei
      · exact ih hcount h1 e' hmem hid

/-! ## Lemmas: a single scheduled run -/

lemma mainRun_of_empty (prior : CalendarDoc) (s : String → Bool) (n : ℤ)
    (ts : String) : mainRun prior [] s n ts = (prior, []) := rfl

lemma mainRun_of_nonempty {fetched : List Event} (h : fetched ≠ [])
    (prior : CalendarDoc) (s : String → Bool) (n : ℤ) (ts : String) :
    mainRun prior fetched s n ts =
      ({ updated_at := some ts,
         events := (check_and_send_notifications s n
            (merge_with_existing fetched prior.events)).1 },
        (check_and_send_notifications s n
          (merge_with_existing fetched prior.events)).2) := by
  unfold mainRun
  rw [if_neg]
  intro hempty
  exact h (List.isEmpty_iff.mp hempty)

lemma mergeOne_flagOf {olds : List Event} {ne oe : Event} (t : Trigger)
    (h : findLastById olds ne.id = some oe) :
    flagOf t (mergeOne olds ne) = flagOf t oe := by
  cases t with
  | A => exact (mergeOne_flags h).1
  | B => exact (mergeOne_flags h).2

lemma countP_ne_nil {l : List Event} {i : String}
    (h : l.countP (fun e => e.id == i) = 1) : l ≠ [] := by
  intro hnil
  rw [hnil] at h
  cases h

lemma runStep_count_le_one (doc : CalendarDoc) (r : RunInput) (i : String)
    (t : Trigger) (hc : r.fetched.countP (fun e => e.id == i) = 1) :
    countFires (mainRun doc r.fetched r.send r.now r.ts).2 i t ≤ 1 := by
  rw [mainRun_of_nonempty (countP_ne_nil hc)]
  calc countFires (check_and_send_notifications r.send r.now
        (merge_with_existing r.fetched doc.events)).2 i t
      ≤ (merge_with_existing r.fetched doc.events).countP (fun e => e.id == i) :=
        csn_count_le_countP _ _ _ _ _
    _ = 1 := by rw [countP_merge]; exact hc

lemma runStep_preserve (doc : CalendarDoc) (r : RunInput) (i : String)
    (t : Trigger) (hc : r.fetched.countP (fun e => e.id == i) = 1)
    (hd : ∃ oe, findLastById doc.events i = some oe ∧ flagOf t oe = true) :
    countFires (mainRun doc r.fetched r.send r.now r.ts).2 i t = 0 ∧
      ∃ oe, findLastById (mainRun doc r.fetched r.send r.now r.ts).1.events i =
        some oe ∧ flagOf t oe = true := by
  rcases hd with ⟨oe, hoe, hflag⟩
  rw [mainRun_of_nonempty (countP_ne_nil hc)]
  have hall : ∀ e ∈ merge_with_existing r.fetched doc.events, e.id = i →
      flagOf t e = true := by
    intro e he hei
    rw [merge_eq_map] at he
    rcases List.mem_map.mp he with ⟨ne, _, rfl⟩
    rw [mergeOne_id] at hei
    rw [mergeOne_flagOf t (by rw [hei]; exact hoe)]
    exact hflag
  have hmain := csn_flags_true r.send r.now t i _ hall
  refine ⟨hmain.1, ?_⟩
  have hcount : ((check_and_send_notifications r.send r.now
      (merge_with_existing r.fetched doc.events)).1).countP
        (fun e => e.id == i) = 1 := by
    rw [csn_fst_map, countP_map_id_pres (evalEvent_fst_id r.send r.now),
      countP_merge]
    exact hc
  rcases findLastById_isSome_of_countP (hcount ▸ Nat.one_pos) with ⟨oe', hoe'⟩
  exact ⟨oe', hoe', hmain.2 oe' (findLastById_mem hoe') (findLastById_id hoe')⟩

lemma runStep_establish (doc : CalendarDoc) (r : RunInput) (i : String)
    (t : Trigger) (hc : r.fetched.countP (fun e => e.id == i) = 1)
    (hs : ∀ m, r.send m = true)
    (h1 : 1 ≤ countFires (mainRun doc r.fetched r.send r.now r.ts).2 i t) :
    ∃ oe, findLastById (mainRun doc r.fetched r.send r.now r.ts).1.events i =
      some oe ∧ flagOf t oe = true := by
  rw [mainRun_of_nonempty (countP_ne_nil hc)] at h1 ⊢
  have hmerged : (merge_with_existing r.fetched doc.events).countP
      (fun e => e.id == i) = 1 := by rw [countP_merge]; exact hc
  have hflags := csn_fired_flags r.send r.now t i hs _ hmerged h1
  have hcount : ((check_and_send_notifications r.send r.now
      (merge_with_existing r.fetched doc.events)).1).countP
        (fun e => e.id == i) = 1 := by
    rw [csn_fst_map, countP_map_id_pres (evalEvent_fst_id r.send r.now)]
    exact hmerged
  rcases findLastById_isSome_of_countP (hcount ▸ Nat.one_pos) with ⟨oe', hoe'⟩
  exact ⟨oe', hoe', hflags oe' (findLastById_mem hoe') (findLastById_id hoe')⟩

/-! ## Lemmas: sequences of runs -/

lemma runSeq_cons (doc : CalendarDoc) (r : RunInput) (rs : List RunInput) :
    runSeq doc (r :: rs) =
      ((runSeq (mainRun doc r.fetched r.send r.now r.ts).1 rs).1,
        (mainRun doc r.fetched r.send r.now r.ts).2 ++
          (runSeq (mainRun doc r.fetched r.send r.now r.ts).1 rs).2) := rfl

lemma runSeq_zero_of_good (t : Trigger) (i : String) :
    ∀ (runs : List RunInput) (doc : CalendarDoc),
      (∀ r ∈ runs, r.fetched.countP (fun e => e.id == i) = 1) →
      (∃ oe, findLastById doc.events i = some oe ∧ flagOf t oe = true) →
      countFires (runSeq doc runs).2 i t = 0 := by
  intro runs
  induction runs with
  | nil => intro doc _ _; rfl
  | cons r rs ih =>
    intro doc hc hd
    rw [runSeq_cons]
    show countFires (_ ++ _) i t = 0
    rw [countFires_append]
    have hstep := runStep_preserve doc r i t (hc r (List.mem_cons_self r rs)) hd
    rw [hstep.1, ih _ (fun x hx => hc x (List.mem_cons_of_mem r hx)) hstep.2]

lemma runSeq_count_le_one (t : Trigger) (i : String) :
    ∀ (runs : List RunInput) (doc : CalendarDoc),
      (∀ r ∈ runs, r.fetched.countP (fun e => e.id == i) = 1) →
      (∀ r ∈ runs, ∀ m, r.send m = true) →
      countFires (runSeq doc runs).2 i t ≤ 1 := by
  intro runs
  induction runs with
  | nil => intro doc _ _; exact Nat.zero_le 1
  | cons r rs ih =>
    intro doc hc hs
    rw [runSeq_cons]
    show countFires (_ ++ _) i t ≤ 1
    rw [countFires_append]
    have hcr := hc r (List.mem_cons_self r rs)
    rcases Nat.eq_zero_or_pos
        (countFires (mainRun doc r.fetched r.send r.now r.ts).2 i t) with h0 | hpos
    · rw [h0, Nat.zero_add]
      exact ih _ (fun x hx => hc x (List.mem_cons_of_mem r hx))
        (fun x hx => hs x (List.mem_cons_of_mem r hx))
    · have hle := runStep_count_le_one doc r i t hcr
      have hrest : countFires
          (runSeq (mainRun doc r.fetched r.send r.now r.ts).1 rs).2 i t = 0 :=
        runSeq_zero_of_good t i rs _
          (fun x hx => hc x (List.mem_cons_of_mem r hx))
          (runStep_establish doc r i t hcr (hs r (List.mem_cons_self r rs)) hpos)
      omega

/-! ## Lemmas: identity and normalization shape -/

lemma bytesToHex_length : ∀ l : List Nat, (bytesToHex l).length = 2 * l.length := by
  intro l
  induction l with
  | nil => rfl
  | cons b rest ih => simp [bytesToHex, ih]; omega

lemma md5HexChars_length (msg : List Nat) : (md5HexChars msg).length = 32 := by
  unfold md5HexChars
  rw [bytesToHex_length]
  simp [wordLEBytes]

lemma generate_event_id_length (date name : String) :
    (generate_event_id date name).length = 16 := by
  show (String.mk ((md5HexChars (utf8Encode (date ++ "_" ++ name))).take 16)).length = 16
  show ((md5HexChars (utf8Encode (date ++ "_" ++ name))).take 16).length = 16
  rw [List.length_take, md5HexChars_length]
  decide

lemma normRow_shape {now : ℤ} {r : RawRow} {e : Event}
    (h : normRow now r = some e) :
    e.id = generate_event_id e.date e.name ∧
    e.status = (if optTruthy e.actual then "completed" else "upcoming") ∧
    e.notification_sent_12h = false ∧
    e.notification_sent_release = false := by
  unfold normRow at h
  repeat' split at h
  all_goals try dsimp only at h
  all_goals cases h
  all_goals exact ⟨rfl, rfl, rfl, rfl⟩

lemma mem_fetch_shape {now : ℤ} {rows : List RawRow} {e : Event}
    (h : e ∈ fetch_calendar_events now rows) :
    e.id = generate_event_id e.date e.name ∧
    e.status = (if optTruthy e.actual then "completed" else "upcoming") ∧
    e.notification_sent_12h = false ∧
    e.notification_sent_release = false := by
  unfold fetch_calendar_events at h
  rcases List.mem_filterMap.mp h with ⟨r, _, hr⟩
  exact normRow_shape hr

/-! ## Lemmas: failed delivery leaves the flag false -/

lemma evalEvent_fail_keeps_flag {s : String → Bool} {n : ℤ} {e : Event}
    (f : Fire) (hf : f ∈ (evalEvent s n e).2) (hok : f.ok = false) :
    flagOf f.trig (evalEvent s n e).1 = false := by
  cases h : parseDateTimeHM (e.date ++ " " ++ e.time) with
  | none => rw [evalEvent_of_parse_none h] at hf; cases hf
  | some tEv =>
    rw [evalEvent_of_parse_some h] at hf ⊢
    show flagOf f.trig (triggerBStep s (triggerAStep s n tEv e).1).1 = false
    rcases List.mem_append.mp hf with hA | hB
    · rw [triggerAStep_snd] at hA
      split at hA
      · next hc =>
        rcases List.mem_singleton.mp hA with rfl
        show flagOf Trigger.A _ = false
        have hsend : s (format_warning_message e (hoursUntil n tEv)) = false := hok
        show (triggerBStep s (triggerAStep s n tEv e).1).1.notification_sent_12h = false
        rw [triggerBStep_fst_flagA, triggerAStep_fst_flagA, hc, hsend,
          condA_flag hc]
        rfl
      · cases hA
    · rw [triggerBStep_snd] at hB
      split at hB
      · next hc =>
        rcases List.mem_singleton.mp hB with rfl
        have hsend : s (format_release_message (triggerAStep s n tEv e).1) = false := hok
        show (triggerBStep s (triggerAStep s n tEv e).1).1.notification_sent_release = false
        rw [triggerBStep_fst_flagB, hc, hsend, condB_flag hc]
        rfl
      · cases hB

/-! ## Lemmas: the firing conditions as propositions -/

lemma condA_iff (n tEv : ℤ) (e : Event) :
    condA n tEv e = true ↔
      (e.impact = "High" ∧ e.notification_sent_12h = false ∧
        0 ≤ hoursUntil n tEv ∧ hoursUntil n tEv ≤ 12) := by
  simp only [condA, Bool.and_eq_true, decide_eq_true_eq, Bool.not_eq_true',
    beq_iff_eq]
  tauto

lemma condB_iff (e : Event) :
    condB e = true ↔
      (e.status = "completed" ∧ optTruthy e.actual = true ∧
        e.notification_sent_release = false ∧ e.impact = "High") := by
  simp only [condB, Bool.and_eq_true, Bool.not_eq_true', beq_iff_eq]
  tauto

/-! ## Claim theorems -/

/-- C7: `generate_event_id` is a pure deterministic function of the pair
`(date, name)`: equal inputs always yield the same id string — a fixed
16-character truncation of the MD5 hex digest, computed from the inputs
alone with no ambient state, so the value is identical across repeated
calls, process restarts and platforms. -/
theorem C7_identity_deterministic (date name : String) :
    generate_event_id date name = generate_event_id date name ∧
    (generate_event_id date name).length = 16 :=
  ⟨rfl, generate_event_id_length date name⟩

/-- C9: when the fetch stage fails (the transport raised, modelled as a
`none` response, which the `except` clause turns into the empty batch) or
yields no events, `main` returns before merging and persisting, so the
prior document is returned unchanged and no notification is attempted. -/
theorem C9_fetch_failure_leaves_prior_untouched (prior : CalendarDoc)
    (s : String → Bool) (fnow enow : ℤ) (ts : String) :
    fetchResultEvents fnow none = [] ∧
    mainRun prior (fetchResultEvents fnow none) s enow ts = (prior, []) ∧
    mainRun prior [] s enow ts = (prior, []) :=
  ⟨rfl, rfl, rfl⟩

/-- C10: an event whose combined `date time` string does not parse with
format `%Y-%m-%d %H:%M` is appended to the output unchanged and no trigger
is evaluated for it — in particular Trigger B attempts nothing even when
its own firing condition holds, as the witness shows on an `All Day`
event. -/
theorem C10_unparseable_time_appends_unchanged (s : String → Bool) (n : ℤ)
    (e : Event) (h : parseDateTimeHM (e.date ++ " " ++ e.time) = none) :
    evalEvent s n e = (e, []) ∧
    countFires (evalEvent s n e).2 e.id Trigger.A = 0 ∧
    countFires (evalEvent s n e).2 e.id Trigger.B = 0 := by
  refine ⟨evalEvent_of_parse_none h, ?_, ?_⟩ <;>
    rw [evalEvent_of_parse_none h] <;> rfl

/-- Witness for C10: the `All Day` event satisfies Trigger B's firing
condition, yet evaluation leaves it untouched and fires nothing. -/
theorem C10_witness :
    parseDateTimeHM (evAllDayB.date ++ " " ++ evAllDayB.time) = none ∧
    condB evAllDayB = true ∧
    evalEvent sendTrue tEval evAllDayB = (evAllDayB, []) :=
  ⟨by decide, by decide,
    (C10_unparseable_time_appends_unchanged sendTrue tEval evAllDayB (by decide)).1⟩

/-- C5: for an event whose scheduled date-time parses, Trigger A attempts
delivery exactly when the impact is High, the 12-hour flag is still false,
and `0 ≤ hours_until ≤ 12`; when it attempts, the resulting flag equals the
delivery outcome (true on success, false on failure), and when it does not
attempt, the flag is untouched. -/
theorem C5_triggerA_fires_iff (s : String → Bool) (n : ℤ) (e : Event) (tEv : ℤ)
    (h : parseDateTimeHM (e.date ++ " " ++ e.time) = some tEv) :
    (1 ≤ countFires (evalEvent s n e).2 e.id Trigger.A ↔
      (e.impact = "High" ∧ e.notification_sent_12h = false ∧
        0 ≤ hoursUntil n tEv ∧ hoursUntil n tEv ≤ 12)) ∧
    (condA n tEv e = true →
      (evalEvent s n e).1.notification_sent_12h =
        s (format_warning_message e (hoursUntil n tEv))) ∧
    (condA n tEv e = false →
      (evalEvent s n e).1.notification_sent_12h = e.notification_sent_12h) := by
  refine ⟨?_, ?_, ?_⟩
  · rw [evalEvent_countA h]
    constructor
    · intro h1
      by_cases hc : condA n tEv e = true
      · exact (condA_iff n tEv e).mp hc
      · rw [if_neg (fun hh => hc hh.1)] at h1
        cases h1
    · intro hp
      rw [if_pos ⟨(condA_iff n tEv e).mpr hp, rfl⟩]
  · intro hc
    rw [evalEvent_of_parse_some h]
    show (triggerBStep s (triggerAStep s n tEv e).1).1.notification_sent_12h = _
    rw [triggerBStep_fst_flagA, triggerAStep_fst_flagA, hc, condA_flag hc]
    simp
  · intro hc
    rw [evalEvent_of_parse_some h]
    show (triggerBStep s (triggerAStep s n tEv e).1).1.notification_sent_12h = _
    rw [triggerBStep_fst_flagA, triggerAStep_fst_flagA, hc]
    simp

unseal Rat.mul Rat.inv Rat.add Rat.sub in
/-- Witness for C5: six hours before the CPI event, with a succeeding sink,
Trigger A attempts delivery. -/
theorem C5_witness :
    1 ≤ countFires (evalEvent sendTrue tEval evCPI).2 evCPI.id Trigger.A :=
  (C5_triggerA_fires_iff sendTrue tEval evCPI tCPI (by decide)).1.mpr
    ⟨rfl, rfl, by decide, by decide⟩

/-- Counterexample for C2: the prior batch holds two entries with id `x`,
the first with `notification_sent_12h = true` and the last with it false;
the merge keys its lookup dict by id with last-entry-wins, so the merged
event for `x` comes out with the flag false although an event with that id
and flag true is present in the prior batch. -/
theorem C2_counterexample :
    evPriorTrue ∈ [evPriorTrue, evCPI] ∧
    evPriorTrue.id = "x" ∧ evPriorTrue.notification_sent_12h = true ∧
    evCPI.id = "x" ∧
    ((merge_with_existing [evCPI] [evPriorTrue, evCPI]).headD evPriorTrue).id = "x" ∧
    ((merge_with_existing [evCPI] [evPriorTrue, evCPI]).headD
      evPriorTrue).notification_sent_12h = false := by
  decide

/-- C2 (amended): the merge carries forward the notification flags of the
LAST prior entry with the event's id (the lookup dict is built by
comprehension, so later duplicates win); whenever that last entry has a
flag true, every merged event with that id has the flag true, regardless of
the forecast, actual or other fields the new fetch supplies.  When the
prior batch has at most one entry per id this is exactly the original
claim. -/
theorem C2_amended (new olds : List Event) (i : String) (oe : Event)
    (t : Trigger) (hlast : findLastById olds i = some oe)
    (hflag : flagOf t oe = true) :
    ∀ e' ∈ merge_with_existing new olds, e'.id = i → flagOf t e' = true := by
  intro e' he' hid
  rw [merge_eq_map] at he'
  rcases List.mem_map.mp he' with ⟨ne, _, rfl⟩
  rw [mergeOne_id] at hid
  rw [mergeOne_flagOf t (by rw [hid]; exact hlast)]
  exact hflag

/-- Witness for C2 (amended): with a single prior entry whose warning flag
is true, the merged event for that id keeps the flag true. -/
theorem C2_witness :
    flagOf Trigger.A ((merge_with_existing [evCPIdone] [evPriorTrue]).headD evCPI)
      = true :=
  C2_amended [evCPIdone] [evPriorTrue] "x" evPriorTrue Trigger.A
    (by decide) (by decide) _ (by decide) (by decide)

/-- Counterexample for C3: the prior entry for id `x` is completed (its
actual value was seen), but the new fetch returns the same id with no
actual value; the merge only forces `completed` when the NEW event carries
an actual, so the merged status regresses to `upcoming`. -/
theorem C3_counterexample :
    evOldDone.id = "x" ∧ evOldDone.status = "completed" ∧
    evCPI.id = "x" ∧ evCPI.actual = none ∧
    ((merge_with_existing [evCPI] [evOldDone]).headD evOldDone).status
      = "upcoming" := by
  decide

/-- C3 (amended): merge preserves `completed` only when the new record
itself carries the evidence: if the prior entry for the id is completed and
the new event for that id has a truthy actual value together with its
normalizer-derived `completed` status, the merged event is completed.  When
the new fetch returns the id without an actual value, the merged status is
the new record's own (`upcoming` for normalized events), so a
completed-to-upcoming regression does occur — the original claim's "never
backward" does not hold. -/
theorem C3_amended (olds : List Event) (i : String) (oe ne : Event)
    (hold : findLastById olds i = some oe) (hcomp : oe.status = "completed")
    (hne : ne.id = i) (hact : optTruthy ne.actual = true)
    (hstat : ne.status = "completed") :
    (mergeOne olds ne).status = "completed" := by
  rw [mergeOne_status (by rw [hne]; exact hold)]
  split
  · rfl
  · exact hstat

/-- Witness for C3 (amended): the released CPI event merged over its
completed prior entry stays completed. -/
theorem C3_witness : (mergeOne [evOldDone] evCPIdone).status = "completed" :=
  C3_amended [evOldDone] "x" evOldDone evCPIdone
    (by decide) (by decide) (by decide) (by decide) (by decide)

/-- C4: the merged list is exactly the new list transformed element by
element — same ids, same multiplicity, same order (so prior-only events are
dropped); an event with an unseen id passes through unchanged, and an event
whose id is known receives the prior entry's two notification flags and the
possibly forced `completed` status, all other fields coming from the new
fetch. -/
theorem C4_merge_characterization (new olds : List Event) :
    (merge_with_existing new olds).map (fun e => e.id) =
      new.map (fun e => e.id) ∧
    merge_with_existing new olds = new.map (mergeOne olds) ∧
    (∀ ne, findLastById olds ne.id = none → mergeOne olds ne = ne) ∧
    (∀ ne oe, findLastById olds ne.id = some oe →
      mergeOne olds ne =
        { ne with
          notification_sent_12h := oe.notification_sent_12h,
          notification_sent_release := oe.notification_sent_release,
          status := if optTruthy ne.actual && !optTruthy oe.actual
            then "completed" else ne.status }) := by
  refine ⟨?_, merge_eq_map new olds, ?_, ?_⟩
  · rw [merge_eq_map, List.map_map]
    refine List.map_congr_left ?_
    intro e _
    simp [Function.comp, mergeOne_id]
  · intro ne hnone
    exact mergeOne_of_none hnone
  · intro ne oe hsome
    rw [mergeOne_of_some hsome]
    by_cases hc : (optTruthy ne.actual && !optTruthy oe.actual) = true
    · rw [if_pos hc, if_pos hc]
    · rw [if_neg hc, if_neg hc]

/-- Witness for C4: merging the released CPI event over a prior entry with
the warning flag set carries the flag and keeps ids aligned. -/
theorem C4_witness :
    (merge_with_existing [evCPIdone] [evPriorTrue]).map (fun e => e.id) =
      [evCPIdone].map (fun e => e.id) ∧
    mergeOne [evPriorTrue] evCPIdone =
      { evCPIdone with
        notification_sent_12h := evPriorTrue.notification_sent_12h,
        notification_sent_release := evPriorTrue.notification_sent_release,
        status := if optTruthy evCPIdone.actual && !optTruthy evPriorTrue.actual
          then "completed" else evCPIdone.status } := by
  have h := C4_merge_characterization [evCPIdone] [evPriorTrue]
  exact ⟨h.1, h.2.2.2 evCPIdone evPriorTrue (by decide)⟩

lemma optTruthy_eq_true {o : Option String} :
    optTruthy o = true ↔ ∃ s, o = some s ∧ s ≠ "" := by
  cases o <;> simp [optTruthy]

unseal Rat.mul Rat.inv Rat.add Rat.sub in
/-- Counterexample for C6: the source coerces values with the textual
substitution `replace('K', '000')`, which is not a multiplication by 1000:
`"1.5K"` becomes `"1.5000"`, i.e. 1.5, where the claim's suffix reading
gives 1500.  On forecast `1.5K` and actual `3K` the message therefore shows
a deviation of 2998.5, not the `3000 − 1500 = 1500` the claim implies. -/
theorem C6_counterexample :
    specSuffixNumericValue "1.5K" = some 1500 ∧
    numericValue "1.5K" = some (Rat.divInt 3 2) ∧
    numericValue "3K" = some 3000 ∧
    deviationSection evKdev = some (Rat.divInt 5997 2, 199900) ∧
    Rat.divInt 5997 2 ≠ (3000 : ℚ) - 1500 := by
  refine ⟨by decide, by decide, by decide, by decide, by decide⟩

/-- C6 (amended): the deviation section is present exactly when both
`forecast` and `actual` are truthy strings that coerce numerically under
the source's textual substitution — every `K` replaced by the digits `000`
(equal to a ×1000 scaling only for whole-number prefixes) and every `%`
removed — and then it carries `actual − forecast` and the percentage
deviation relative to the forecast, 0 when the parsed forecast is zero;
when either value fails to coerce, the section is omitted and no error is
raised (the computation is total). -/
theorem C6_deviation_characterization (e : Event) :
    ((deviationSection e).isSome ↔
      ∃ f a fv av, e.forecast = some f ∧ e.actual = some a ∧
        f ≠ "" ∧ a ≠ "" ∧ numericValue f = some fv ∧ numericValue a = some av) ∧
    (∀ f a fv av, e.forecast = some f → e.actual = some a → f ≠ "" → a ≠ "" →
      numericValue f = some fv → numericValue a = some av →
      deviationSection e =
        some (av - fv, if fv ≠ 0 then (av - fv) / fv * 100 else 0)) := by
  have hpart2 : ∀ f a fv av, e.forecast = some f → e.actual = some a →
      f ≠ "" → a ≠ "" → numericValue f = some fv → numericValue a = some av →
      deviationSection e =
        some (av - fv, if fv ≠ 0 then (av - fv) / fv * 100 else 0) := by
    intro f a fv av hf ha hf0 ha0 hnf hna
    unfold deviationSection
    rw [hf, ha]
    have h1 : optTruthy (some f) = true := by simp [optTruthy, hf0]
    have h2 : optTruthy (some a) = true := by simp [optTruthy, ha0]
    rw [if_pos (by rw [h1, h2]; exact rfl)]
    simp only [Option.getD_some]
    rw [hnf, hna]
  refine ⟨⟨?_, ?_⟩, hpart2⟩
  · intro hsome
    unfold deviationSection at hsome
    by_cases ht : (optTruthy e.forecast && optTruthy e.actual) = true
    · have ht' := ht
      simp only [Bool.and_eq_true] at ht'
      rcases ht' with ⟨htf, hta⟩
      rcases optTruthy_eq_true.mp htf with ⟨f, hf, hf0⟩
      rcases optTruthy_eq_true.mp hta with ⟨a, ha, ha0⟩
      rw [if_pos ht, hf, ha] at hsome
      simp only [Option.getD_some] at hsome
      cases hnf : numericValue f with
      | none => rw [hnf] at hsome; cases hna : numericValue a <;>
          rw [hna] at hsome <;> cases hsome
      | some fv =>
        cases hna : numericValue a with
        | none => rw [hnf, hna] at hsome; cases hsome
        | some av => exact ⟨f, a, fv, av, hf, ha, hf0, ha0, hnf, hna⟩
    · rw [if_neg ht] at hsome
      cases hsome
  · rintro ⟨f, a, fv, av, hf, ha, hf0, ha0, hnf, hna⟩
    rw [hpart2 f a fv av hf ha hf0 ha0 hnf hna]
    rfl

unseal Rat.mul Rat.inv Rat.add Rat.sub in
/-- Witness for C6 (amended): forecast `0.3%` and actual `0.4%` produce the
deviation pair. -/
theorem C6_witness :
    deviationSection evCPIdone =
      some ((2 / 5 : ℚ) - 3 / 10,
        if (3 / 10 : ℚ) ≠ 0 then ((2 / 5 : ℚ) - 3 / 10) / (3 / 10) * 100 else 0) :=
  (C6_deviation_characterization evCPIdone).2 "0.3%" "0.4%" (3 / 10) (2 / 5)
    rfl rfl (by decide) (by decide) (by decide) (by decide)

set_option maxRecDepth 400000 in
/-- Counterexample for C8: two raw rows with the same date and event name
but different times both survive normalization, and both receive the same
id, so the normalized batch holds two distinct entries sharing one id. -/
theorem C8_counterexample :
    (fetch_calendar_events tFetch [rowCPI1, rowCPI2]).length = 2 ∧
    ((fetch_calendar_events tFetch [rowCPI1, rowCPI2]).headD evCPI).id =
      ((fetch_calendar_events tFetch [rowCPI1, rowCPI2]).getLastD evCPI).id ∧
    ((fetch_calendar_events tFetch [rowCPI1, rowCPI2]).headD evCPI).time
      = "13:30" ∧
    ((fetch_calendar_events tFetch [rowCPI1, rowCPI2]).getLastD evCPI).time
      = "20:00" := by
  refine ⟨by decide, by decide, by decide, by decide⟩

/-- C8 (amended): every normalized event's id is exactly the digest of its
`(date, name)` pair, so ids are unique in a batch only as far as those
digests are pairwise distinct; in particular two rows with the same date
and name — the counterexample — always yield the same id, because the
pipeline never deduplicates. -/
theorem C8_amended (now : ℤ) (rows : List RawRow) :
    (∀ e ∈ fetch_calendar_events now rows,
      e.id = generate_event_id e.date e.name) ∧
    (∀ e1 ∈ fetch_calendar_events now rows,
      ∀ e2 ∈ fetch_calendar_events now rows,
      e1.date = e2.date → e1.name = e2.name → e1.id = e2.id) := by
  constructor
  · intro e he
    exact (mem_fetch_shape he).1
  · intro e1 h1 e2 h2 hd hn
    rw [(mem_fetch_shape h1).1, (mem_fetch_shape h2).1, hd, hn]

set_option maxRecDepth 400000 in
/-- Witness for C8 (amended): the normalized CPI event's id is the digest
of its date and name. -/
theorem C8_witness :
    (fetch_calendar_events tFetch [rowCPI1]).headD evCPI ∈
      fetch_calendar_events tFetch [rowCPI1] ∧
    ((fetch_calendar_events tFetch [rowCPI1]).headD evCPI).id =
      generate_event_id
        ((fetch_calendar_events tFetch [rowCPI1]).headD evCPI).date
        ((fetch_calendar_events tFetch [rowCPI1]).headD evCPI).name := by
  have hmem : (fetch_calendar_events tFetch [rowCPI1]).headD evCPI ∈
      fetch_calendar_events tFetch [rowCPI1] := by decide
  exact ⟨hmem, (C8_amended tFetch [rowCPI1]).1 _ hmem⟩

set_option maxRecDepth 400000 in
unseal Rat.mul Rat.inv Rat.add Rat.sub in
/-- Counterexample for C1: three runs with every delivery succeeding.  The
first run fires Trigger A for id `x` and persists the flag; the second
run's fetch omits `x`, so the merge drops the persisted entry; the third
run fetches `x` afresh with default flags and fires Trigger A again — two
fires for one id across a run sequence despite all deliveries
succeeding. -/
theorem C1_counterexample :
    runA.send = sendTrue ∧ runB.send = sendTrue ∧ sendTrue = (fun _ => true) ∧
    countFires (runSeq docEmpty [runA, runB, runA]).2 "x" Trigger.A = 2 := by
  refine ⟨rfl, rfl, rfl, by decide⟩

/-- C1 (amended): across any sequence of runs in which every run's fetched
batch contains exactly one event with the given id (the id neither drops
out of a fetch nor is duplicated inside one) and every delivery succeeds,
Trigger A fires at most once for that id and Trigger B fires at most once
for that id; and independently, whenever a delivery attempt fails, the
trigger's flag is left false on the evaluated event, so the trigger stays
eligible for a later run. -/
theorem C1_amended (d0 : CalendarDoc) (runs : List RunInput) (i : String)
    (hone : ∀ r ∈ runs, r.fetched.countP (fun e => e.id == i) = 1)
    (hsucc : ∀ r ∈ runs, ∀ m, r.send m = true) :
    countFires (runSeq d0 runs).2 i Trigger.A ≤ 1 ∧
    countFires (runSeq d0 runs).2 i Trigger.B ≤ 1 ∧
    (∀ (s : String → Bool) (n : ℤ) (e : Event) (f : Fire),
      f ∈ (evalEvent s n e).2 → f.ok = false →
      flagOf f.trig (evalEvent s n e).1 = false) :=
  ⟨runSeq_count_le_one Trigger.A i runs d0 hone hsucc,
    runSeq_count_le_one Trigger.B i runs d0 hone hsucc,
    fun _ _ _ f hf hok => evalEvent_fail_keeps_flag f hf hok⟩

/-- Witness for C1 (amended): a single run fetching the CPI event once. -/
theorem C1_witness :
    countFires (runSeq docEmpty [runA]).2 "x" Trigger.A ≤ 1 :=
  (C1_amended docEmpty [runA] "x"
    (fun r hr => by rw [List.mem_singleton] at hr; rw [hr]; decide)
    (fun r hr m => by rw [List.mem_singleton] at hr; rw [hr]; rfl)).1

end Cockpit

